import Mathlib

set_option maxRecDepth 10000

/-
Shallow embedding of the hoyu-translation-python repository
(src/translate_google.py and src/translate_realtime.py).

Both scripts share the same configuration (TARGET_LANGS), the same
per-language transcript buffers (text_buffers), the same popup-window
dictionary (open_windows), the same toggle_window and save_transcript
code.  They differ in the translation backend (deep_translator
GoogleTranslator vs. a local LibreTranslate HTTP endpoint) and in that
translate_google.py additionally renders transient partial recognition
results (update_text has a transient flag there).

Modelling conventions:
  * Python strings are Lean Strings; buffer appends are string
    concatenation exactly as in `text_buffers[lang_code] += f"{message}\n\n"`.
  * The dictionaries text_buffers / open_windows are modelled as total
    functions from language-code strings; text_buffers is created with
    keys ["zh"] + TARGET_LANGS (langKeys below) and only ever indexed at
    those keys, so the total function is a conservative model.
  * A popup window's ScrolledText widget is modelled as the list of text
    chunks inserted into it (each win.insert appends one chunk; the
    transient branch of translate_google.py's update_text deletes the
    previously inserted chunk before inserting, via
    win.delete("end-3l", "end-1l")).
  * Threads are data: translate_text returns the list of spawned units
    of work (one list element per threading.Thread started), and each
    unit is the list of translation calls it performs in order.
  * Backends are oracles (String -> String -> result) so that theorems
    quantify over every possible backend behaviour.
-/

/-- Python str.strip() whitespace set (the ASCII whitespace characters;
the strings handled by this program contain no exotic Unicode spaces). -/
def isPySpace (c : Char) : Bool :=
  c = ' ' || c = '\t' || c = '\n' || c = '\r' || c = '\x0b' || c = '\x0c'

/-- Python `s.strip()`: drop leading and trailing whitespace. -/
def pyStrip (s : String) : String :=
  String.mk (((s.data.dropWhile isPySpace).reverse.dropWhile isPySpace).reverse)

/-- `TARGET_LANGS` from both source files (insertion order of the dict). -/
def TARGET_LANGS : List (String × String) :=
  [("en", "English"), ("tl", "Tagalog"), ("id", "Indonesian"),
   ("th", "Thai"), ("vi", "Vietnamese")]

/-- `TARGET_LANGS.keys()` in iteration order. -/
def targetLangCodes : List String := TARGET_LANGS.map Prod.fst

/-- The keys of `text_buffers`: `["zh"] + list(TARGET_LANGS.keys())`. -/
def langKeys : List String := "zh" :: targetLangCodes

/-- The mutable program state the claims are about: the per-language
transcript buffers and the open popup windows (window contents modelled
as the list of inserted text chunks). -/
structure AppState where
  text_buffers : String → String
  open_windows : String → Option (List String)

/-- Process start: every buffer `""`, no window open
(`text_buffers = {lang: "" for lang in ...}`, `open_windows = {}`). -/
def initState : AppState :=
  { text_buffers := fun _ => "", open_windows := fun _ => none }

/-- `toggle_window(lang_code, title)` (identical in both files; the
`title` argument only feeds window captions and log messages, which are
outside the state modelled here).  If the window is open it is destroyed
and removed from `open_windows`; otherwise a fresh window is created
and, when `lang_code in text_buffers`, backfilled with one insert of the
buffer's full current content. -/
def toggle_window (lang : String) (s : AppState) : AppState :=
  match s.open_windows lang with
  | some _ =>
      { s with open_windows := fun l => if l = lang then none else s.open_windows l }
  | none =>
      let backfill : List String :=
        if langKeys.contains lang then [s.text_buffers lang] else []
      { s with open_windows := fun l => if l = lang then some backfill else s.open_windows l }

/-- Concatenation of the chunks inserted into a window: the text a sink
(window) displays. -/
def windowText (chunks : List String) : String := String.join chunks

namespace Google

/-- `update_text(lang_code, message, transient=False)` of
translate_google.py: unless transient, append `message\n\n` to the
buffer; if a window for the language is open, the transient branch first
deletes the previously inserted chunk (`win.delete("end-3l","end-1l")`)
and then inserts `message\n\n`; the normal branch just inserts. -/
def update_text (lang msg : String) (transient : Bool) (s : AppState) : AppState :=
  let bufs : String → String :=
    if transient then s.text_buffers
    else fun l => if l = lang then s.text_buffers l ++ msg ++ "\n\n" else s.text_buffers l
  let wins : String → Option (List String) :=
    match s.open_windows lang with
    | none => s.open_windows
    | some cs =>
        let cs2 := if transient then cs.dropLast ++ [msg ++ "\n\n"]
                   else cs ++ [msg ++ "\n\n"]
        fun l => if l = lang then some cs2 else s.open_windows l
  { text_buffers := bufs, open_windows := wins }

end Google

namespace Realtime

/-- `update_text(lang_code, message)` of translate_realtime.py: always
append `message\n\n` to the buffer and insert it into the window if one
is open (no transient handling in this variant). -/
def update_text (lang msg : String) (s : AppState) : AppState :=
  { text_buffers :=
      fun l => if l = lang then s.text_buffers l ++ msg ++ "\n\n" else s.text_buffers l,
    open_windows :=
      match s.open_windows lang with
      | none => s.open_windows
      | some cs => fun l => if l = lang then some (cs ++ [msg ++ "\n\n"]) else s.open_windows l }

end Realtime

/-- Outcome of `save_transcript()`: either the "No Content" message box
(and no file), or proceeding to the save dialog with the given content. -/
inductive SaveOutcome where
  | noContent
  | saved (content : String)
deriving DecidableEq

/-- The `combined` list built by `save_transcript()` (identical in both
files): the Chinese header and stripped Chinese buffer, then for each
target language a header plus stripped buffer, every entry ending in
a blank line. -/
def save_combined (bufs : String → String) : List String :=
  "🈶 Chinese Transcript:\n" :: (pyStrip (bufs "zh") ++ "\n\n") ::
    TARGET_LANGS.map (fun p => "🌐 " ++ p.2 ++ " Translation:\n" ++ pyStrip (bufs p.1) ++ "\n\n")

/-- `content = "\n".join(combined).strip()` in `save_transcript()`. -/
def save_content (bufs : String → String) : String :=
  pyStrip (String.intercalate "\n" (save_combined bufs))

/-- `save_transcript()`: show "No Content" when `content` is falsy,
otherwise go on to the save dialog and write `content`. -/
def save_transcript (bufs : String → String) : SaveOutcome :=
  if save_content bufs = "" then SaveOutcome.noContent
  else SaveOutcome.saved (save_content bufs)

/-- The section header lines `save_transcript()` writes, in configured
order. -/
def headerLines : List String :=
  "🈶 Chinese Transcript:" :: TARGET_LANGS.map (fun p => "🌐 " ++ p.2 ++ " Translation:")

/-- Split a character list at newline characters (the semantics of
`content.split("\n")`). -/
def splitNl : List Char → List (List Char)
  | [] => [[]]
  | c :: cs =>
      match splitNl cs with
      | [] => [[c]]
      | l :: ls => if c = '\n' then [] :: l :: ls else (c :: l) :: ls

/-- The lines of a string. -/
def linesOf (s : String) : List String := (splitNl s.data).map String.mk

/-- Parsing an exported transcript back by section header, following the
spec's round-trip property: the body of a section is the run of lines
after its header line up to the next header line, joined and stripped. -/
def sectionBody (content header : String) : String :=
  let after := ((linesOf content).dropWhile (fun l => !(l == header))).drop 1
  let body := after.takeWhile (fun l => !(headerLines.contains l))
  pyStrip (String.intercalate "\n" body)

/-- One `update_text` invocation made by the recognition loop (the data
of a sink notification). -/
structure UpdateCall where
  lang : String
  message : String
  transient : Bool
deriving DecidableEq

/-- An event returned by the recognizer for one audio frame:
`rec.AcceptWaveform` true yields a final `rec.Result()` text, otherwise
`rec.PartialResult()` yields the current unstable hypothesis. -/
inductive RecEvent where
  | finalEvt (raw : String)
  | partEvt (raw : String)

namespace Google

/-- One `GoogleTranslator(source=..., target=...).translate(text)` call
as issued by `_translate_task` of translate_google.py. -/
structure TransCall where
  source : String
  target : String
  text : String
deriving DecidableEq

/-- Result of one GoogleTranslator call: a translated string, or the
exception caught by the `except Exception as e` handler. -/
inductive GResult where
  | ok (t : String)
  | exn (e : String)

/-- `_translate_task(text)`, viewed as the list of translation calls it
issues: one per `lang_code in TARGET_LANGS.keys()`, in order, each with
`source='zh-TW'` and `target=lang_code`. -/
def _translate_requests (text : String) : List TransCall :=
  targetLangCodes.map (fun L => { source := "zh-TW", target := L, text := text })

/-- The message `_translate_task` appends for one language given the
outcome of its GoogleTranslator call: the translation on success, or
`"⚠️ {e}"` on exception. -/
def recordOf : GResult → String
  | GResult.ok t => t
  | GResult.exn e => "⚠️ " ++ e

/-- The call made for one language is `backend text L`. -/
def Gfailed : GResult → Prop
  | GResult.ok _ => False
  | GResult.exn _ => True

/-- `_translate_task(text)`, viewed as the (language, message) buffer
appends it performs via `update_text(lang_code, ...)`, in loop order,
given a backend oracle. -/
def _translate_records (backend : String → String → GResult) (text : String) :
    List (String × String) :=
  targetLangCodes.map (fun L => (L, recordOf (backend text L)))

/-- `translate_text(text)`: starts a single `threading.Thread` running
`_translate_task(text)` — the list of spawned concurrent units of work,
each given by the requests it performs sequentially. -/
def translate_text_tasks (text : String) : List (List TransCall) :=
  [_translate_requests text]

/-- The effect of one iteration of translate_google.py's `listen_loop`
body on the modelled state: the resulting state, the threads spawned
(via `translate_text`) and the `update_text` calls made. -/
structure GStep where
  state : AppState
  spawned : List (List TransCall)
  calls : List UpdateCall

/-- One iteration of `listen_loop` of translate_google.py: a final
result is stripped and, when non-empty, appended to the "zh" buffer and
fanned out through `translate_text`; a partial result is stripped and,
when non-empty, displayed transiently as `"🕒 {partial}"`. -/
def listen_step (ev : RecEvent) (s : AppState) : GStep :=
  match ev with
  | RecEvent.finalEvt raw =>
      let text := pyStrip raw
      if text = "" then { state := s, spawned := [], calls := [] }
      else
        { state := update_text "zh" text false s,
          spawned := translate_text_tasks text,
          calls := [{ lang := "zh", message := text, transient := false }] }
  | RecEvent.partEvt raw =>
      let p := pyStrip raw
      if p = "" then { state := s, spawned := [], calls := [] }
      else
        { state := update_text "zh" ("🕒 " ++ p) true s,
          spawned := [],
          calls := [{ lang := "zh", message := "🕒 " ++ p, transient := true }] }

/-- Run `listen_loop` iterations over a sequence of recognizer events,
collecting each iteration's `update_text` calls. -/
def runSteps : List RecEvent → AppState → AppState × List (List UpdateCall)
  | [], s => (s, [])
  | ev :: evs, s =>
      let st := listen_step ev s
      let r := runSteps evs st.state
      (r.1, st.calls :: r.2)

end Google

namespace Realtime

/-- The form payload of one `requests.post(LIBRE_URL, data=payload)`
issued by `_translate_task` of translate_realtime.py. -/
structure Payload where
  q : String
  source : String
  target : String
  format : String
deriving DecidableEq

/-- The fields of the HTTP response `_translate_task` inspects. -/
structure HttpResponse where
  ok : Bool
  status_code : Nat
  translatedText : String

/-- Result of one `requests.post` call: a response, or the exception
(timeouts included — `requests` raises on timeout) caught by the
`except Exception as e` handler. -/
inductive RResult where
  | resp (r : HttpResponse)
  | exn (e : String)

/-- A failed call in the sense of the spec: non-2xx (`response.ok`
false) or timeout/exception. -/
def Rfailed : RResult → Prop
  | RResult.resp r => r.ok = false
  | RResult.exn _ => True

/-- `_translate_task(text)`, viewed as the list of request payloads it
posts: one per target language in order, with `source="zh"`,
`target=lang_code`, `format="text"`. -/
def _translate_payloads (text : String) : List Payload :=
  targetLangCodes.map (fun L => { q := text, source := "zh", target := L, format := "text" })

/-- The message `_translate_task` appends for one language given the
call's outcome: `translatedText` when `response.ok`, otherwise
`"❌ Error ({status})"`, and `"⚠️ {e}"` on exception. -/
def recordOf : RResult → String
  | RResult.resp r => if r.ok then r.translatedText else "❌ Error (" ++ toString r.status_code ++ ")"
  | RResult.exn e => "⚠️ " ++ e

/-- `_translate_task(text)`, viewed as the (language, message) buffer
appends it performs via `update_text(lang_code, ...)`, in loop order,
given a backend oracle. -/
def _translate_records (backend : String → String → RResult) (text : String) :
    List (String × String) :=
  targetLangCodes.map (fun L => (L, recordOf (backend text L)))

/-- `translate_text(text)`: starts a single `threading.Thread` running
`_translate_task(text)`. -/
def translate_text_tasks (text : String) : List (List Payload) :=
  [_translate_payloads text]

/-- The effect of one iteration of translate_realtime.py's
`listen_loop` body when `rec.AcceptWaveform` returns a final result. -/
structure RStep where
  state : AppState
  spawned : List (List Payload)
  calls : List (String × String)

/-- The final-result branch of translate_realtime.py's `listen_loop`:
strip, and when non-empty append to the "zh" buffer and fan out. -/
def listen_final (raw : String) (s : AppState) : RStep :=
  let text := pyStrip raw
  if text = "" then { state := s, spawned := [], calls := [] }
  else
    { state := update_text "zh" text s,
      spawned := translate_text_tasks text,
      calls := [("zh", text)] }

end Realtime

/-
Trace semantics for the concurrent translation tasks (claim C1).

Each finalized utterance spawns one thread; that thread performs, for
each target language in order, an atomic buffer append (`update_text`
holds the GIL for the dict-and-string update).  An execution of the
program is an interleaving of the threads' append sequences.  A schedule
is a list of thread indices; at each step the indicated thread performs
its next pending append (an index pointing at a finished or nonexistent
thread does nothing).
-/

/-- The append sequence of the thread spawned for utterance `t`, given
the per-(utterance, language) translation results as a function `rec`
(each entry is the message `update_text` appends for that language). -/
def taskOf (rec : String → String → String) (t : String) : List (String × String) :=
  targetLangCodes.map (fun L => (L, rec t L))

/-- Apply a sequence of completed appends to the state, in completion
order (each is an `update_text(lang, msg)` of translate_realtime.py,
whose non-transient buffer effect is identical in both variants). -/
def applyActs (acts : List (String × String)) (s : AppState) : AppState :=
  acts.foldl (fun st a => Realtime.update_text a.1 a.2 st) s

/-- Run a schedule over the pending tasks: returns the appends in the
order they execute, and the leftover (unexecuted) task suffixes. -/
def runSched : List Nat → List (List (String × String)) →
    List (String × String) × List (List (String × String))
  | [], tasks => ([], tasks)
  | i :: rest, tasks =>
      match tasks.get? i with
      | some (a :: as) =>
          let r := runSched rest (tasks.set i as)
          (a :: r.1, r.2)
      | _ => runSched rest tasks

/-- The appends executed by a schedule. -/
def execOf (sched : List Nat) (tasks : List (List (String × String))) :
    List (String × String) :=
  (runSched sched tasks).1

/-- A schedule is complete when it leaves no pending append. -/
def completes (sched : List Nat) (tasks : List (List (String × String))) : Bool :=
  (runSched sched tasks).2.all List.isEmpty

/-- The buffer text produced by a list of appended records, in order. -/
def recJoin : List (String × String) → String
  | [] => ""
  | a :: as => a.2 ++ "\n\n" ++ recJoin as

/-- A record is visibly tagged as an error: it carries one of the two
error markers the code prepends (`"⚠️ {e}"` / `"❌ Error ({status})"`). -/
def errTagged (m : String) : Prop :=
  (∃ e, m = "⚠️ " ++ e) ∨ (∃ c, m = "❌ Error (" ++ c ++ ")")

/-
Helper lemmas.
-/

/-- Filtering a keyed map by a key absent from the (key) list yields
nothing. -/
theorem filter_map_key_not_mem {β : Type} (f : String → β) (key : β → String)
    (hkey : ∀ l, key (f l) = l) (L : String) :
    ∀ ls : List String, L ∉ ls → (ls.map f).filter (fun b => key b == L) = [] := by
  intro ls
  induction ls with
  | nil => intro _; rfl
  | cons x xs ih =>
      intro h
      have hx : ¬ (x = L) := fun e => h (e ▸ List.mem_cons_self x xs)
      have hxs : L ∉ xs := fun m => h (List.mem_cons_of_mem _ m)
      simp only [List.map_cons, List.filter_cons, hkey x, beq_iff_eq]
      rw [if_neg (by simpa using hx)]
      exact ih hxs

/-- Mapping a keyed construction over a duplicate-free key list and
filtering by one of the keys yields exactly that key's element. -/
theorem filter_map_key {β : Type} (f : String → β) (key : β → String)
    (hkey : ∀ l, key (f l) = l) (L : String) :
    ∀ ls : List String, ls.Nodup → L ∈ ls →
      (ls.map f).filter (fun b => key b == L) = [f L] := by
  intro ls
  induction ls with
  | nil => intro _ hm; cases hm
  | cons x xs ih =>
      intro hnd hm
      rcases List.mem_cons.mp hm with he | hm2
      · subst he
        simp only [List.map_cons, List.filter_cons, hkey, beq_iff_eq]
        rw [if_pos trivial]
        rw [filter_map_key_not_mem f key hkey L xs (List.nodup_cons.mp hnd).1]
      · have hx : ¬ (x = L) := by
          intro e; subst e
          exact (List.nodup_cons.mp hnd).1 hm2
        simp only [List.map_cons, List.filter_cons, hkey, beq_iff_eq]
        rw [if_neg (by simpa using hx)]
        exact ih (List.nodup_cons.mp hnd).2 hm2

/-- The target-language code list is duplicate-free. -/
theorem targetLangCodes_nodup : targetLangCodes.Nodup := by decide

/-- C4 (code bug evaluation): with every buffer empty — the state right
after process start — `save_transcript` does not take the "No Content"
path; it proceeds to the save dialog with header-only content, because
`combined` unconditionally contains the section headers, so `content`
is never falsy. -/
theorem save_transcript_empty_buffers_saves :
    save_transcript initState.text_buffers
        = SaveOutcome.saved ("🈶 Chinese Transcript:\n\n\n\n\n🌐 English Translation:\n\n\n\n🌐 Tagalog Translation:\n\n\n\n🌐 Indonesian Translation:\n\n\n\n🌐 Thai Translation:\n\n\n\n🌐 Vietnamese Translation:")
      ∧ save_transcript initState.text_buffers ≠ SaveOutcome.noContent := by
  exact ⟨by decide, by decide⟩

/-- The buffers of the spec's round-trip scenario: one finalized record
"line A" in the source buffer, one finalized record "translated A" in
the English buffer (records are stored as `text + "\n\n"`). -/
def roundTripBufs : String → String := fun l =>
  if l = "zh" then "line A\n\n" else if l = "en" then "translated A\n\n" else ""

/-- C7: `save_transcript` on the round-trip buffers proceeds to write
`save_content`, and parsing that content back by section header
recovers "line A" and "translated A" exactly. -/
theorem export_round_trip :
    save_transcript roundTripBufs = SaveOutcome.saved (save_content roundTripBufs)
      ∧ sectionBody (save_content roundTripBufs) "🈶 Chinese Transcript:" = "line A"
      ∧ sectionBody (save_content roundTripBufs) "🌐 English Translation:" = "translated A" := by
  exact ⟨by decide, by decide, by decide⟩

/-- C8: toggling a language's window open (attach) and toggling it again
(detach) never touches that language's — or any — transcript buffer:
after attach-then-detach the buffers equal their pre-attach state, and
already after the detach step all buffered content is retained. -/
theorem attach_detach_buffers_unchanged (s : AppState) (lang : String)
    (h : s.open_windows lang = none) :
    (toggle_window lang (toggle_window lang s)).text_buffers = s.text_buffers
      ∧ (toggle_window lang s).text_buffers = s.text_buffers := by
  constructor
  · simp [toggle_window, h]
  · simp [toggle_window, h]

/-- Witness for C8 at a concrete state: fresh start, English window. -/
theorem attach_detach_buffers_unchanged_witness :
    (toggle_window "en" (toggle_window "en" initState)).text_buffers = initState.text_buffers
      ∧ (toggle_window "en" initState).text_buffers = initState.text_buffers :=
  attach_detach_buffers_unchanged initState "en" rfl

/-- C9: attaching a sink (opening the window) while no window is open
for a configured language backfills the new window with exactly the
buffer's current content: its first observed text is the buffer, with
no loss and no duplication.  The hypothesis covers both a first attach
and a reattach after a detach. -/
theorem attach_backfills_exact (s : AppState) (lang : String)
    (h1 : s.open_windows lang = none) (h2 : langKeys.contains lang = true) :
    Option.map windowText ((toggle_window lang s).open_windows lang)
      = some (s.text_buffers lang) := by
  have h2m : lang ∈ langKeys := by simpa using h2
  simp [toggle_window, h1, h2m, windowText, String.join, String.empty_append]

/-- Witness for C9: reattach after a detach with buffered content. -/
theorem attach_backfills_exact_witness :
    Option.map windowText
        ((toggle_window "th"
            (toggle_window "th" (toggle_window "th"
              { text_buffers := fun l => if l = "th" then "曾经\n\n" else "",
                open_windows := fun _ => none }))).open_windows "th")
      = some ((toggle_window "th" (toggle_window "th"
              { text_buffers := fun l => if l = "th" then "曾经\n\n" else "",
                open_windows := fun _ => none })).text_buffers "th") :=
  attach_backfills_exact
    (toggle_window "th" (toggle_window "th"
      { text_buffers := fun l => if l = "th" then "曾经\n\n" else "",
        open_windows := fun _ => none })) "th" (by decide) (by decide)

/-- C10: a final recognition result whose text strips to empty does
nothing in either variant: the state (all buffers and windows) is
unchanged, no thread is spawned, and no `update_text` call is made. -/
theorem empty_final_noop (raw : String) (s : AppState) (h : pyStrip raw = "") :
    Google.listen_step (RecEvent.finalEvt raw) s
        = { state := s, spawned := [], calls := [] }
      ∧ Realtime.listen_final raw s = { state := s, spawned := [], calls := [] } := by
  constructor
  · simp [Google.listen_step, h]
  · simp [Realtime.listen_final, h]

/-- Witness for C10 at a whitespace-only final result. -/
theorem empty_final_noop_witness :
    Google.listen_step (RecEvent.finalEvt "  \n ") initState
        = { state := initState, spawned := [], calls := [] }
      ∧ Realtime.listen_final "  \n " initState
        = { state := initState, spawned := [], calls := [] } :=
  empty_final_noop "  \n " initState (by decide)

/-- Claim C2 as stated: for every finalized non-empty utterance, each
configured target language gets its own concurrent unit of work (one
spawned thread per language) and every request uses source language
"zh". -/
def fanoutClaim : Prop :=
  ∀ text : String, pyStrip text ≠ "" →
    ((Google.translate_text_tasks (pyStrip text)).length = TARGET_LANGS.length
      ∧ ∀ task ∈ Google.translate_text_tasks (pyStrip text), ∀ r ∈ task, r.source = "zh")
    ∧ ((Realtime.translate_text_tasks (pyStrip text)).length = TARGET_LANGS.length
      ∧ ∀ task ∈ Realtime.translate_text_tasks (pyStrip text), ∀ r ∈ task, r.source = "zh")

/-- C2 counterexample: at the utterance "你好" the code spawns exactly
one thread (which serves all five target languages sequentially), not
one per language, and the Google variant's requests use source
"zh-TW", not "zh". -/
theorem fanout_claim_false : ¬ fanoutClaim := by
  intro h
  have h2 := (h "你好" (by decide)).1.1
  exact absurd h2 (by decide)

/-- C2 amended: a finalized non-empty utterance appends its stripped
text to the source-language buffer and spawns exactly one background
thread; that single thread issues exactly one translation request per
configured target language, sequentially in configured order, with
source "zh-TW" (Google variant) resp. "zh" (HTTP variant) and the
target's code; so a slow backend for one language delays the later
languages of the same utterance, though never the recognition loop. -/
theorem fanout_dispatch (raw : String) (s : AppState) (h : pyStrip raw ≠ "") :
    (Google.listen_step (RecEvent.finalEvt raw) s).state.text_buffers "zh"
        = s.text_buffers "zh" ++ pyStrip raw ++ "\n\n"
      ∧ (Google.listen_step (RecEvent.finalEvt raw) s).spawned
          = [Google._translate_requests (pyStrip raw)]
      ∧ (∀ L ∈ targetLangCodes,
          (Google._translate_requests (pyStrip raw)).filter (fun r => r.target == L)
            = [{ source := "zh-TW", target := L, text := pyStrip raw }])
      ∧ (Realtime.listen_final raw s).state.text_buffers "zh"
          = s.text_buffers "zh" ++ pyStrip raw ++ "\n\n"
      ∧ (Realtime.listen_final raw s).spawned
          = [Realtime._translate_payloads (pyStrip raw)]
      ∧ (∀ L ∈ targetLangCodes,
          (Realtime._translate_payloads (pyStrip raw)).filter (fun p => p.target == L)
            = [{ q := pyStrip raw, source := "zh", target := L, format := "text" }]) := by
  refine ⟨?_, ?_, ?_, ?_, ?_, ?_⟩
  · simp [Google.listen_step, h, Google.update_text]
  · simp [Google.listen_step, h, Google.translate_text_tasks]
  · intro L hL
    exact filter_map_key
      (fun l => { source := "zh-TW", target := l, text := pyStrip raw })
      Google.TransCall.target (fun _ => rfl) L targetLangCodes targetLangCodes_nodup hL
  · simp [Realtime.listen_final, h, Realtime.update_text]
  · simp [Realtime.listen_final, h, Realtime.translate_text_tasks]
  · intro L hL
    exact filter_map_key
      (fun l => { q := pyStrip raw, source := "zh", target := l, format := "text" })
      Realtime.Payload.target (fun _ => rfl) L targetLangCodes targetLangCodes_nodup hL

/-- Witness for the amended C2 at the utterance " 你好 ". -/
theorem fanout_dispatch_witness :
    (Google.listen_step (RecEvent.finalEvt " 你好 ") initState).state.text_buffers "zh"
        = initState.text_buffers "zh" ++ pyStrip " 你好 " ++ "\n\n"
      ∧ (Google.listen_step (RecEvent.finalEvt " 你好 ") initState).spawned
          = [Google._translate_requests (pyStrip " 你好 ")]
      ∧ (∀ L ∈ targetLangCodes,
          (Google._translate_requests (pyStrip " 你好 ")).filter (fun r => r.target == L)
            = [{ source := "zh-TW", target := L, text := pyStrip " 你好 " }])
      ∧ (Realtime.listen_final " 你好 " initState).state.text_buffers "zh"
          = initState.text_buffers "zh" ++ pyStrip " 你好 " ++ "\n\n"
      ∧ (Realtime.listen_final " 你好 " initState).spawned
          = [Realtime._translate_payloads (pyStrip " 你好 ")]
      ∧ (∀ L ∈ targetLangCodes,
          (Realtime._translate_payloads (pyStrip " 你好 ")).filter (fun p => p.target == L)
            = [{ q := pyStrip " 你好 ", source := "zh", target := L, format := "text" }]) :=
  fanout_dispatch " 你好 " initState (by decide)

/-- Helper: the partial-result branch of translate_google.py's
`listen_loop` never changes any transcript buffer (both the empty and
the non-empty stripped partial case). -/
theorem partEvt_buffers_eq (p : String) (s : AppState) :
    (Google.listen_step (RecEvent.partEvt p) s).state.text_buffers = s.text_buffers := by
  by_cases h : pyStrip p = ""
  · simp [Google.listen_step, h]
  · simp [Google.listen_step, h, Google.update_text]

/-- Helper: after any run of partial events followed by one non-empty
final event, the buffers hold exactly one new finalized record in "zh"
and are otherwise untouched. -/
theorem runSteps_final_buffers (ps : List String) (raw : String) (s : AppState)
    (h : pyStrip raw ≠ "") (l : String) :
    (Google.runSteps (ps.map RecEvent.partEvt ++ [RecEvent.finalEvt raw]) s).1.text_buffers l
      = (if l = "zh" then s.text_buffers "zh" ++ pyStrip raw ++ "\n\n" else s.text_buffers l) := by
  induction ps generalizing s with
  | nil =>
      by_cases hl : l = "zh" <;>
        simp [Google.runSteps, Google.listen_step, h, Google.update_text, hl]
  | cons p ps ih =>
      simp only [List.map_cons, List.cons_append, Google.runSteps, List.append_eq]
      rw [ih (Google.listen_step (RecEvent.partEvt p) s).state]
      rw [partEvt_buffers_eq p s]

/-- C6: a transient `update_text` never modifies any transcript buffer,
and a partial sequence ending in one non-empty final result leaves every
buffer unchanged except "zh", which gains exactly the one finalized
record — no partial text is ever persisted. -/
theorem transient_never_persisted (lang msg : String) (ps : List String)
    (raw : String) (s : AppState) (h : pyStrip raw ≠ "") :
    (Google.update_text lang msg true s).text_buffers = s.text_buffers
      ∧ ∀ l,
        (Google.runSteps (ps.map RecEvent.partEvt ++ [RecEvent.finalEvt raw]) s).1.text_buffers l
          = (if l = "zh" then s.text_buffers "zh" ++ pyStrip raw ++ "\n\n"
             else s.text_buffers l) := by
  constructor
  · rfl
  · intro l
    exact runSteps_final_buffers ps raw s h l

/-- Witness for C6 at the spec's scenario: partials "你", "你好", then
final "你好世界". -/
theorem transient_never_persisted_witness :
    (Google.update_text "en" "m" true initState).text_buffers = initState.text_buffers
      ∧ ∀ l,
        (Google.runSteps (["你", "你好"].map RecEvent.partEvt
            ++ [RecEvent.finalEvt "你好世界"]) initState).1.text_buffers l
          = (if l = "zh" then initState.text_buffers "zh" ++ pyStrip "你好世界" ++ "\n\n"
             else initState.text_buffers l) :=
  transient_never_persisted "en" "m" ["你", "你好"] "你好世界" initState (by decide)

/-- Claim C5 as stated: consecutive duplicate partials are deduplicated
against the last-seen partial text, so processing the same non-empty
partial twice acts (calls `update_text`) only the first time. -/
def dedupeClaim : Prop :=
  ∀ (raw : String) (s : AppState), pyStrip raw ≠ "" →
    (Google.runSteps [RecEvent.partEvt raw, RecEvent.partEvt raw] s).2
      = [[{ lang := "zh", message := "🕒 " ++ pyStrip raw, transient := true }], []]

/-- C5 counterexample: the loop keeps no last-seen partial; at the
duplicate partial "你" (from the fresh start state) the second event
triggers a second `update_text` call instead of none. -/
theorem dedupe_claim_false : ¬ dedupeClaim := by
  intro h
  have h2 := h "你" initState (by decide)
  exact absurd h2 (by decide)

/-- C5 amended: the pipeline acts on every partial whose stripped text
is non-empty — consecutive duplicates included, there is no dedupe —
and each action is transient: it leaves all buffers unchanged and, when
a source-language window is open, replaces the previously displayed
chunk rather than appending a duplicate line. -/
theorem duplicate_partials_both_act (raw : String) (s : AppState) (h : pyStrip raw ≠ "") :
    (Google.runSteps [RecEvent.partEvt raw, RecEvent.partEvt raw] s).2
        = [[{ lang := "zh", message := "🕒 " ++ pyStrip raw, transient := true }],
           [{ lang := "zh", message := "🕒 " ++ pyStrip raw, transient := true }]]
      ∧ (Google.listen_step (RecEvent.partEvt raw) s).state.text_buffers = s.text_buffers
      ∧ ∀ cs, s.open_windows "zh" = some cs →
          (Google.listen_step (RecEvent.partEvt raw) s).state.open_windows "zh"
            = some (cs.dropLast ++ ["🕒 " ++ pyStrip raw ++ "\n\n"]) := by
  refine ⟨?_, partEvt_buffers_eq raw s, ?_⟩
  · simp [Google.runSteps, Google.listen_step, h]
  · intro cs hcs
    simp [Google.listen_step, h, Google.update_text, hcs]

/-- Witness for the amended C5 at the partial "你". -/
theorem duplicate_partials_both_act_witness :
    (Google.runSteps [RecEvent.partEvt "你", RecEvent.partEvt "你"] initState).2
        = [[{ lang := "zh", message := "🕒 " ++ pyStrip "你", transient := true }],
           [{ lang := "zh", message := "🕒 " ++ pyStrip "你", transient := true }]]
      ∧ (Google.listen_step (RecEvent.partEvt "你") initState).state.text_buffers
          = initState.text_buffers
      ∧ ∀ cs, initState.open_windows "zh" = some cs →
          (Google.listen_step (RecEvent.partEvt "你") initState).state.open_windows "zh"
            = some (cs.dropLast ++ ["🕒 " ++ pyStrip "你" ++ "\n\n"]) :=
  duplicate_partials_both_act "你" initState (by decide)

/-- C3: for any backend behaviour and any utterance, if the call for a
target language fails (non-2xx in the HTTP variant; exception/timeout
in either variant), then the task appends for that language exactly one
record, and it is visibly error-tagged (never a silent drop); moreover
every configured target language — the failing one included — receives
exactly one record, so a failure neither aborts the remaining languages
of the utterance nor triggers a retry.  (The recognition loop itself is
untouched: translation runs on a spawned thread whose effects are the
records listed here, and `listen_step` does not depend on them.) -/
theorem translation_failure_contained
    (rb : String → String → Realtime.RResult) (gb : String → String → Google.GResult)
    (text L : String) (hL : L ∈ targetLangCodes) :
    (Realtime.Rfailed (rb text L) →
        (Realtime._translate_records rb text).filter (fun a => a.1 == L)
            = [(L, Realtime.recordOf (rb text L))]
          ∧ errTagged (Realtime.recordOf (rb text L)))
      ∧ (∀ L2 ∈ targetLangCodes,
          (Realtime._translate_records rb text).filter (fun a => a.1 == L2)
            = [(L2, Realtime.recordOf (rb text L2))])
      ∧ (Google.Gfailed (gb text L) →
          (Google._translate_records gb text).filter (fun a => a.1 == L)
              = [(L, Google.recordOf (gb text L))]
            ∧ errTagged (Google.recordOf (gb text L)))
      ∧ (∀ L2 ∈ targetLangCodes,
          (Google._translate_records gb text).filter (fun a => a.1 == L2)
            = [(L2, Google.recordOf (gb text L2))]) := by
  refine ⟨?_, ?_, ?_, ?_⟩
  · intro hf
    constructor
    · exact filter_map_key (fun l => (l, Realtime.recordOf (rb text l))) Prod.fst
        (fun _ => rfl) L targetLangCodes targetLangCodes_nodup hL
    · cases hr : rb text L with
      | resp r =>
          have hok : r.ok = false := by
            have := hf; rw [hr] at this; simpa [Realtime.Rfailed] using this
          right
          exact ⟨toString r.status_code, by simp [Realtime.recordOf, hr, hok]⟩
      | exn e => exact Or.inl ⟨e, by simp [Realtime.recordOf, hr]⟩
  · intro L2 hL2
    exact filter_map_key (fun l => (l, Realtime.recordOf (rb text l))) Prod.fst
      (fun _ => rfl) L2 targetLangCodes targetLangCodes_nodup hL2
  · intro hf
    constructor
    · exact filter_map_key (fun l => (l, Google.recordOf (gb text l))) Prod.fst
        (fun _ => rfl) L targetLangCodes targetLangCodes_nodup hL
    · cases hr : gb text L with
      | ok t =>
          exfalso
          have := hf; rw [hr] at this; exact this
      | exn e => exact Or.inl ⟨e, by simp [Google.recordOf, hr]⟩
  · intro L2 hL2
    exact filter_map_key (fun l => (l, Google.recordOf (gb text l))) Prod.fst
      (fun _ => rfl) L2 targetLangCodes targetLangCodes_nodup hL2

/-- A backend whose English call times out and whose other calls
succeed (for the witness). -/
def timeoutEnBackend : String → String → Realtime.RResult := fun _ L =>
  if L = "en" then Realtime.RResult.exn "HTTPConnectionPool read timed out"
  else Realtime.RResult.resp { ok := true, status_code := 200, translatedText := "hello" }

/-- A Google-variant backend whose English call raises (for the
witness). -/
def raiseEnBackend : String → String → Google.GResult := fun _ L =>
  if L = "en" then Google.GResult.exn "server error" else Google.GResult.ok "hello"

/-- Witness for C3: English fails in both variants for utterance
"你好"; the hypotheses of the containment theorem hold concretely. -/
theorem translation_failure_contained_witness :
    ("en" ∈ targetLangCodes)
      ∧ ((Realtime.Rfailed (timeoutEnBackend "你好" "en") →
            (Realtime._translate_records timeoutEnBackend "你好").filter (fun a => a.1 == "en")
                = [("en", Realtime.recordOf (timeoutEnBackend "你好" "en"))]
              ∧ errTagged (Realtime.recordOf (timeoutEnBackend "你好" "en")))
          ∧ (∀ L2 ∈ targetLangCodes,
              (Realtime._translate_records timeoutEnBackend "你好").filter (fun a => a.1 == L2)
                = [(L2, Realtime.recordOf (timeoutEnBackend "你好" L2))])
          ∧ (Google.Gfailed (raiseEnBackend "你好" "en") →
              (Google._translate_records raiseEnBackend "你好").filter (fun a => a.1 == "en")
                  = [("en", Google.recordOf (raiseEnBackend "你好" "en"))]
                ∧ errTagged (Google.recordOf (raiseEnBackend "你好" "en")))
          ∧ (∀ L2 ∈ targetLangCodes,
              (Google._translate_records raiseEnBackend "你好").filter (fun a => a.1 == L2)
                = [(L2, Google.recordOf (raiseEnBackend "你好" L2))])) :=
  ⟨by decide,
   translation_failure_contained timeoutEnBackend raiseEnBackend "你好" "en" (by decide)⟩

/-- Helper: `applyActs` distributes over concatenation of append
sequences. -/
theorem applyActs_append (xs ys : List (String × String)) (s : AppState) :
    applyActs (xs ++ ys) s = applyActs ys (applyActs xs s) := by
  simp [applyActs, List.foldl_append]

/-- Helper: after a sequence of completed appends, a language's buffer
is its previous content followed by exactly that language's records in
completion order. -/
theorem applyActs_buffers (acts : List (String × String)) (s : AppState) (L : String) :
    (applyActs acts s).text_buffers L
      = s.text_buffers L ++ recJoin (acts.filter (fun a => a.1 == L)) := by
  induction acts generalizing s with
  | nil => simp [applyActs, recJoin]
  | cons a as ih =>
      rw [show applyActs (a :: as) s = applyActs as (Realtime.update_text a.1 a.2 s) from rfl]
      rw [ih]
      by_cases hL : a.1 = L
      · simp [List.filter_cons, hL, recJoin, Realtime.update_text, String.append_assoc]
      · have hL2 : ¬ (L = a.1) := fun e => hL e.symm
        simp [List.filter_cons, hL, hL2, Realtime.update_text]

/-- Claim C1 as stated: for every complete execution schedule of the
spawned translation threads, every target language's buffer lists the
records in utterance (dispatch) order — i.e. ordering is preserved
regardless of the order in which the translation calls complete. -/
def orderingClaim (utts : List String) (rec : String → String → String) : Prop :=
  ∀ (sched : List Nat) (L : String), L ∈ targetLangCodes →
    completes sched (utts.map (taskOf rec)) = true →
    (applyActs (execOf sched (utts.map (taskOf rec))) initState).text_buffers L
      = recJoin (utts.map (fun t => (L, rec t L)))

/-- Successful translations used by the C1 counterexample. -/
def recCE : String → String → String := fun t L => t ++ "-" ++ L

/-- Two finalized utterances, dispatched in this order. -/
def twoUtts : List String := ["ay", "bee"]

/-- A complete schedule in which the second utterance's thread runs
first (its five appends, then the first utterance's five). -/
def badSched : List Nat := [1, 1, 1, 1, 1, 0, 0, 0, 0, 0]

/-- C1 counterexample: nothing sequences thread completions, so under
`badSched` the English buffer reads "bee-en\n\nay-en\n\n" — the second
utterance's successful record before the first's — violating the
claimed ordering invariant. -/
theorem ordering_claim_false : ¬ orderingClaim twoUtts recCE := by
  intro h
  have h2 := h badSched "en" (by decide) (by decide)
  exact absurd h2 (by decide)

/-- C1 amended: per-language ordering holds exactly for executions in
which the translation threads complete in dispatch order (each
utterance's thread finishes all its appends before the next utterance's
thread runs) — then each target language's buffer extends by that
language's records in utterance order.  In general the buffer receives
records in thread-completion order, which the code leaves unordered. -/
theorem ordering_in_dispatch_order (utts : List String) (rec : String → String → String)
    (s : AppState) (L : String) (hL : L ∈ targetLangCodes) :
    (applyActs ((utts.map (taskOf rec)).flatten) s).text_buffers L
      = s.text_buffers L ++ recJoin (utts.map (fun t => (L, rec t L))) := by
  induction utts generalizing s with
  | nil => simp [applyActs, recJoin]
  | cons t ts ih =>
      rw [List.map_cons, List.flatten_cons, applyActs_append, ih]
      rw [applyActs_buffers]
      have hsingle := filter_map_key (fun l => (l, rec t l)) Prod.fst
        (fun _ => rfl) L targetLangCodes targetLangCodes_nodup hL
      rw [show taskOf rec t = targetLangCodes.map (fun l => (l, rec t l)) from rfl]
      rw [hsingle]
      simp [recJoin, String.append_assoc]

/-- Witness for the amended C1: two utterances executed in dispatch
order extend the English buffer in utterance order. -/
theorem ordering_in_dispatch_order_witness :
    (applyActs ((twoUtts.map (taskOf recCE)).flatten) initState).text_buffers "en"
      = initState.text_buffers "en" ++ recJoin (twoUtts.map (fun t => ("en", recCE t "en"))) :=
  ordering_in_dispatch_order twoUtts recCE initState "en" (by decide)
